import Mathlib

/-
Shallow embedding of the subscription lifecycle engine of the Subly
repository (src/subly/models.py and src/subly/routes.py).

Modelling conventions:
* timestamps are integers counted in days since an arbitrary epoch, so
  timedelta(days = d) is addition of d; a SQL NULL end_date is none;
* the relational store is a record holding the plan catalog and the
  subscription ledger as lists in rowid (insertion) order together with the
  autoincrement counters;
* SQL statements become pure functions on that record; fetchone on a query
  with LIMIT 1 and no ORDER BY returns the first match in storage order;
* the created_at column of user_subscriptions is declared with
  default=datetime.datetime.now(datetime.timezone.utc); Python evaluates
  that argument once, when models.py is imported, so the column default is
  one fixed datetime for the whole process.  The record therefore carries
  that constant as importTime and every insert that does not set created_at
  explicitly stores it.
-/

namespace Subly

/-- A row of the subscription_plans table (models.py, class
SubscriptionPlan).  The price is modelled as an integer number of cents. -/
structure SubscriptionPlan where
  id : Nat
  name : String
  price : Int
  description : String
  features : String
deriving Repr, DecidableEq

/-- A row of the user_subscriptions table (models.py, class
UserSubscription).  end_date = none models SQL NULL (open-ended). -/
structure SubRow where
  id : Nat
  user_id : Nat
  plan_id : Nat
  start_date : Int
  end_date : Option Int
  is_active : Bool
  created_at : Int
deriving Repr, DecidableEq

/-- The relational store: plan catalog and subscription ledger in rowid
order, the autoincrement counters of the two tables, and importTime, the
single datetime captured when models.py is imported (the stored created_at
column default). -/
structure DB where
  plans : List SubscriptionPlan
  subs : List SubRow
  nextPlanId : Nat
  nextId : Nat
  importTime : Int
deriving Repr, DecidableEq

/-- The active-and-unexpired predicate of the WHERE clauses in
get_active_subscription and cancel_active_subscription:
is_active = 1 AND (end_date IS NULL OR end_date > now). -/
def activeUnexpired (now : Int) (r : SubRow) : Bool :=
  r.is_active &&
    (match r.end_date with
     | none => true
     | some e => decide (now < e))

/-- The rows of one user that satisfy the active-and-unexpired predicate,
in storage order. -/
def activeRows (db : DB) (uid : Nat) (now : Int) : List SubRow :=
  db.subs.filter (fun r => r.user_id == uid && activeUnexpired now r)

/-- The number of simultaneously active rows of a user: the quantity the
single-active-subscription invariant bounds by one. -/
def countActive (db : DB) (uid : Nat) (now : Int) : Nat :=
  (activeRows db uid now).length

/-- A row of user_subscriptions JOIN subscription_plans as returned by the
read queries: the subscription columns plus plan name and plan price. -/
structure JoinedRow where
  sub : SubRow
  plan_name : String
  plan_price : Int
deriving Repr, DecidableEq

/-- JOIN subscription_plans sp ON us.plan_id = sp.id: sp.id is the primary
key, so the join resolves each ledger row through a lookup of its plan_id
in the catalog; a row whose plan_id matches no plan joins to nothing. -/
def joinPlan (plans : List SubscriptionPlan) (r : SubRow) : Option JoinedRow :=
  (plans.find? (fun p => p.id == r.plan_id)).map
    (fun p => { sub := r, plan_name := p.name, plan_price := p.price })

/-- UserSubscription.get_active_subscription (models.py lines 105 to 131):
SELECT the joined rows of the user satisfying the active-and-unexpired
predicate, LIMIT 1 without ORDER BY, so the first match in storage order is
returned; fetchone yields none when nothing matches. -/
def get_active_subscription (db : DB) (uid : Nat) (now : Int) :
    Option JoinedRow :=
  ((activeRows db uid now).filterMap (joinPlan db.plans)).head?

/-- UserSubscription.get_active_subscription paired with the list of log
records the call emits: the method body contains no logger call, so that
list is empty. -/
def get_active_subscription_logged (db : DB) (uid : Nat) (now : Int) :
    Option JoinedRow × List String :=
  (get_active_subscription db uid now, [])

/-- Effect of the UPDATE of cancel_active_subscription on one row: a row of
the user satisfying the active-and-unexpired predicate gets is_active = 0
and end_date = now; any other row is untouched. -/
def cancelRow (uid : Nat) (now : Int) (r : SubRow) : SubRow :=
  if r.user_id == uid && activeUnexpired now r then
    { r with is_active := false, end_date := some now }
  else r

/-- UserSubscription.cancel_active_subscription (models.py lines 168 to
189): one conditional UPDATE over the ledger followed by a commit; returns
the updated store and rowcount > 0. -/
def cancel_active_subscription (db : DB) (uid : Nat) (now : Int) :
    DB × Bool :=
  ({ db with subs := db.subs.map (cancelRow uid now) },
   decide (0 < countActive db uid now))

/-- ORDER BY created_at DESC, modelled as a stable sort with the order
comparing created_at downwards; rows with equal created_at keep their rowid
order, matching a stable scan of the ledger. -/
def orderByCreatedDesc (l : List JoinedRow) : List JoinedRow :=
  l.insertionSort (fun a b => b.sub.created_at ≤ a.sub.created_at)

/-- UserSubscription.get_subscription_history (models.py lines 133 to 166):
the joined rows of the user ordered by created_at descending, sliced by
LIMIT per_page OFFSET (page - 1) * per_page, paired with the total row
count of the user (a COUNT over user_subscriptions alone, without join or
pagination). -/
def get_subscription_history (db : DB) (uid : Nat) (page perPage : Nat) :
    List JoinedRow × Nat :=
  let offset := (page - 1) * perPage
  let joined :=
    (db.subs.filter (fun r => r.user_id == uid)).filterMap (joinPlan db.plans)
  (((orderByCreatedDesc joined).drop offset).take perPage,
   (db.subs.filter (fun r => r.user_id == uid)).length)

/-- Outcome of POST /api/subscriptions/subscribe (routes.py, subscribe).
invalidPlan is the 404 response, alreadyActive the 400 response carrying
the plan name and end date of the existing subscription, success the 201
response. -/
inductive SubscribeResult where
  | invalidPlan
  | alreadyActive (planName : String) (expires : Option Int)
  | success (subscriptionId : Nat) (planName : String) (endDate : Int)
deriving Repr, DecidableEq

/-- POST /api/subscriptions/subscribe (routes.py lines 192 to 257): look up
the plan (404 when absent), reject when get_active_subscription finds an
active row (400), otherwise run cancel_active_subscription and insert the
new row with start_date = now, end_date = now + 30 * duration days,
is_active = true.  created_at is not passed, so the stored column default
importTime applies. -/
def subscribe (db : DB) (uid planId : Nat) (duration now : Int) :
    DB × SubscribeResult :=
  match db.plans.find? (fun p => p.id == planId) with
  | none => (db, .invalidPlan)
  | some plan =>
    match get_active_subscription db uid now with
    | some active =>
        (db, .alreadyActive active.plan_name active.sub.end_date)
    | none =>
        let db1 := (cancel_active_subscription db uid now).1
        let endDate := now + 30 * duration
        let row : SubRow :=
          { id := db1.nextId, user_id := uid, plan_id := planId,
            start_date := now, end_date := some endDate, is_active := true,
            created_at := db1.importTime }
        ({ db1 with subs := db1.subs ++ [row], nextId := db1.nextId + 1 },
         .success row.id plan.name endDate)

/-- Outcome of POST /api/subscriptions/cancel (routes.py): notFound is the
404 response, success the 200 response. -/
inductive CancelResult where
  | notFound
  | success
deriving Repr, DecidableEq

/-- POST /api/subscriptions/cancel (routes.py lines 338 to 354): one call
of cancel_active_subscription; rowcount 0 maps to the 404 not-found
response, otherwise 200. -/
def cancel_subscription (db : DB) (uid : Nat) (now : Int) :
    DB × CancelResult :=
  let r := cancel_active_subscription db uid now
  (r.1, if r.2 then .success else .notFound)

/-- Outcome of POST /api/subscriptions/upgrade (routes.py). -/
inductive UpgradeResult where
  | invalidPlan
  | samePlan
  | viaSubscribe (r : SubscribeResult)
  | success (subscriptionId : Nat) (planName : String) (endDate : Int)
deriving Repr, DecidableEq

/-- POST /api/subscriptions/upgrade (routes.py lines 357 to 417): the plan
must exist (404); with no active subscription the handler delegates to
subscribe(); with an active subscription on the requested plan it rejects
(400); otherwise it runs cancel_active_subscription and inserts a new row
exactly as subscribe does. -/
def upgrade_subscription (db : DB) (uid planId : Nat) (duration now : Int) :
    DB × UpgradeResult :=
  match db.plans.find? (fun p => p.id == planId) with
  | none => (db, .invalidPlan)
  | some plan =>
    match get_active_subscription db uid now with
    | none =>
        let r := subscribe db uid planId duration now
        (r.1, .viaSubscribe r.2)
    | some active =>
        if active.sub.plan_id == planId then (db, .samePlan)
        else
          let db1 := (cancel_active_subscription db uid now).1
          let endDate := now + 30 * duration
          let row : SubRow :=
            { id := db1.nextId, user_id := uid, plan_id := planId,
              start_date := now, end_date := some endDate,
              is_active := true, created_at := db1.importTime }
          ({ db1 with subs := db1.subs ++ [row], nextId := db1.nextId + 1 },
           .success row.id plan.name endDate)

/-- One sequential call of the lifecycle engine for a fixed user. -/
inductive Op where
  | subscribeOp (planId : Nat) (duration : Int)
  | cancelOp
  | upgradeOp (planId : Nat) (duration : Int)
deriving Repr, DecidableEq

/-- The store after one operation executed at time now (responses are
dropped). -/
def applyOp (db : DB) (uid : Nat) (now : Int) : Op → DB
  | .subscribeOp planId duration => (subscribe db uid planId duration now).1
  | .cancelOp => (cancel_subscription db uid now).1
  | .upgradeOp planId duration =>
      (upgrade_subscription db uid planId duration now).1

/-- Sequential execution of a list of timed operations for one user. -/
def runOps (db : DB) (uid : Nat) : List (Int × Op) → DB
  | [] => db
  | (t, op) :: rest => runOps (applyOp db uid t op) uid rest

/-- The program counter and response of one in-flight subscribe request, at
statement granularity: against the store, each SQL statement together with
its commit is one atomic step.  pc = 0: about to run the plan lookup and
the active-subscription SELECT; pc = 1: about to run the cancel UPDATE with
its commit; pc = 2: about to run the INSERT with its commit.  routes.py
wraps none of these statements in a common transaction. -/
structure SubThread where
  planId : Nat
  duration : Int
  pc : Nat
  result : Option SubscribeResult
deriving Repr, DecidableEq

/-- One atomic statement of a subscribe request against the shared store. -/
def stepSub (db : DB) (uid : Nat) (now : Int) (th : SubThread) :
    DB × SubThread :=
  match th.result with
  | some _ => (db, th)
  | none =>
    if th.pc == 0 then
      match db.plans.find? (fun p => p.id == th.planId) with
      | none => (db, { th with result := some .invalidPlan })
      | some _ =>
        match get_active_subscription db uid now with
        | some active =>
            let res := SubscribeResult.alreadyActive
              active.plan_name active.sub.end_date
            (db, { th with result := some res })
        | none => (db, { th with pc := 1 })
    else if th.pc == 1 then
      ((cancel_active_subscription db uid now).1, { th with pc := 2 })
    else
      let endDate := now + 30 * th.duration
      let row : SubRow :=
        { id := db.nextId, user_id := uid, plan_id := th.planId,
          start_date := now, end_date := some endDate, is_active := true,
          created_at := db.importTime }
      let planName :=
        ((db.plans.find? (fun p => p.id == th.planId)).map
          (fun p => p.name)).getD ""
      let res := SubscribeResult.success row.id planName endDate
      ({ db with subs := db.subs ++ [row], nextId := db.nextId + 1 },
       { th with pc := 3, result := some res })

/-- Interleaved execution of two concurrent subscribe requests of the same
user: the schedule lists which request runs its next atomic statement
(true = first request, false = second). -/
def runSched (uid : Nat) (now : Int) :
    DB × SubThread × SubThread → List Bool → DB × SubThread × SubThread
  | s, [] => s
  | (db, a, b), c :: rest =>
    if c then
      let r := stepSub db uid now a
      runSched uid now (r.1, r.2, b) rest
    else
      let r := stepSub db uid now b
      runSched uid now (r.1, a, r.2) rest

/-- A create-plan request body. -/
structure CreatePlanReq where
  name : String
  price : Int
  description : String
  features : String
deriving Repr, DecidableEq

/-- Modelled from the spec: routes.py imports CreatePlanSchema from
subly/schemas.py, but that schema class is missing from the file.  The spec
says createPlan takes (name, price, description, features) with a unique
name and a non-negative price, so validation accepts a request with a
nonempty name and a price of at least zero. -/
def createPlanValid (req : CreatePlanReq) : Bool :=
  !(req.name == "") && decide (0 ≤ req.price)

/-- Outcome of POST /api/subscriptions/plans (routes.py, create_plan):
validationErrors is the 400 response, conflict the 409 response carrying
the error payload, created the 201 response. -/
inductive CreatePlanResult where
  | validationErrors
  | conflict (error : String)
  | created (planId : Nat) (name : String) (price : Int)
deriving Repr, DecidableEq

/-- POST /api/subscriptions/plans (routes.py lines 146 to 189): validate,
reject a duplicate name with a 409 conflict, then insert and commit.
insertFails models the storage collaborator raising during that insert or
commit; the except branch of the handler catches every exception and
returns status 409 with the same duplicate-name error payload used by the
conflict case, not a generic internal-error payload. -/
def create_plan (db : DB) (req : CreatePlanReq) (insertFails : Bool) :
    DB × CreatePlanResult :=
  if !(createPlanValid req) then (db, .validationErrors)
  else if db.plans.any (fun p => p.name == req.name) then
    (db, .conflict "Plan with this name already exists")
  else if insertFails then
    (db, .conflict "Plan with this name already exists")
  else
    let plan : SubscriptionPlan :=
      { id := db.nextPlanId, name := req.name, price := req.price,
        description := req.description, features := req.features }
    ({ db with plans := db.plans ++ [plan], nextPlanId := db.nextPlanId + 1 },
     .created plan.id plan.name plan.price)

/-- Outcome of GET /api/subscriptions/history (routes.py route handler):
ok is the 200 response with its payload fields, internalError the 500
response produced by the catch-all except branch. -/
inductive HistoryResult where
  | ok (subscriptions : List JoinedRow) (total : Nat)
      (page perPage pages : Int)
  | internalError (error : String)
deriving Repr, DecidableEq

/-- Python floor division.  Division by zero raises ZeroDivisionError,
modelled as none. -/
def pyFloorDiv (a b : Int) : Option Int :=
  if b == 0 then none else some (Int.fdiv a b)

/-- GET /api/subscriptions/history (routes.py lines 294 to 335): run the
paginated query, then compute pages = (total + per_page - 1) // per_page.
With per_page = 0 that division raises ZeroDivisionError and the catch-all
except branch returns the generic 500 payload.  The claims exercise
page >= 1 and per_page >= 0, where the Nat slicing of the query model and
the SQL LIMIT/OFFSET semantics agree. -/
def get_subscription_history_route (db : DB) (uid : Nat)
    (page perPage : Int) : HistoryResult :=
  let q := get_subscription_history db uid page.toNat perPage.toNat
  match pyFloorDiv ((q.2 : Int) + perPage - 1) perPage with
  | none => .internalError "Internal server error"
  | some pages => .ok q.1 q.2 page perPage pages

/-- A sample catalog row used by the concrete instances below. -/
def planPro : SubscriptionPlan :=
  { id := 1, name := "Pro", price := 100, description := "", features := "" }

/-- A store holding the sample plan and an empty ledger. -/
def dbEmpty : DB :=
  { plans := [planPro], subs := [], nextPlanId := 2, nextId := 1,
    importTime := 0 }

/-- The initial state of one pending subscribe request for plan 1, one
month. -/
def thInit : SubThread := { planId := 1, duration := 1, pc := 0, result := none }

/-- Two subscribe requests of user 7 racing at time 100, interleaved as
check, check, cancel, cancel, insert, insert. -/
def raceFinal : DB × SubThread × SubThread :=
  runSched 7 100 (dbEmpty, thInit, thInit)
    [true, false, true, false, true, false]

/-- Store after user 7 subscribed at time 10, cancelled at time 20 and
subscribed again at time 30: two history rows created at distinct request
times. -/
def dbTwoEras : DB :=
  (subscribe ((cancel_subscription ((subscribe dbEmpty 7 1 1 10).1) 7 20).1)
    7 1 1 30).1

/-- A stale row: flagged active although its end date 5 has passed. -/
def staleRow : SubRow :=
  { id := 1, user_id := 7, plan_id := 1, start_date := 0, end_date := some 5,
    is_active := true, created_at := 0 }

/-- A store whose ledger holds only the stale row. -/
def dbStale : DB :=
  { plans := [planPro], subs := [staleRow], nextPlanId := 2, nextId := 2,
    importTime := 0 }

/-- A single active-and-unexpired row of user 7. -/
def oneActive : SubRow :=
  { id := 1, user_id := 7, plan_id := 1, start_date := 0,
    end_date := some 100, is_active := true, created_at := 0 }

/-- A store whose ledger holds exactly one active row of user 7. -/
def dbOne : DB :=
  { plans := [planPro], subs := [oneActive], nextPlanId := 2, nextId := 2,
    importTime := 0 }

/-- An open-ended active row of user 7. -/
def act1 : SubRow :=
  { id := 1, user_id := 7, plan_id := 1, start_date := 0, end_date := none,
    is_active := true, created_at := 0 }

/-- A second, simultaneously active row of user 7: a state the invariant
forbids. -/
def act2 : SubRow :=
  { id := 2, user_id := 7, plan_id := 1, start_date := 0,
    end_date := some 200, is_active := true, created_at := 0 }

/-- A store violating the single-active-subscription invariant: two rows of
user 7 match the active-and-unexpired predicate. -/
def dbTwoActive : DB :=
  { plans := [planPro], subs := [act1, act2], nextPlanId := 2, nextId := 3,
    importTime := 0 }

/-- A create-plan request with a name absent from the catalog. -/
def reqFresh : CreatePlanReq :=
  { name := "Basic", price := 5, description := "", features := "" }

/-- A create-plan request whose name duplicates the existing plan. -/
def reqDup : CreatePlanReq :=
  { name := "Pro", price := 5, description := "", features := "" }

/-- A store whose ledger holds one hundred rows of user 7. -/
def dbHundred : DB :=
  { plans := [planPro],
    subs := (List.range 100).map (fun i =>
      { id := i + 1, user_id := 7, plan_id := 1, start_date := 0,
        end_date := some 1000, is_active := false, created_at := 0 }),
    nextPlanId := 2, nextId := 101, importTime := 0 }

/-- A sequence of lifecycle calls of user 7 at increasing times. -/
def opsSample : List (Int × Op) :=
  [(10, .subscribeOp 1 1), (20, .cancelOp), (30, .upgradeOp 1 1)]

end Subly

namespace Subly

/-- The active-and-unexpired predicate is antitone in time: a row active
and unexpired at a later instant was so at any earlier one. -/
theorem activeUnexpired_antitone {t t' : Int} (h : t ≤ t') (r : SubRow)
    (ha : activeUnexpired t' r = true) : activeUnexpired t r = true := by
  cases he : r.end_date with
  | none => simp [activeUnexpired, he] at ha ⊢; exact ha
  | some e =>
      simp [activeUnexpired, he] at ha ⊢
      exact ⟨ha.1, lt_of_le_of_lt h ha.2⟩

/-- Rows counted as active at a later instant are counted at any earlier
one, over any ledger fragment. -/
theorem filter_active_antitone (l : List SubRow) (uid : Nat) {t t' : Int}
    (h : t ≤ t') :
    (l.filter (fun r => r.user_id == uid && activeUnexpired t' r)).length ≤
      (l.filter (fun r => r.user_id == uid && activeUnexpired t r)).length := by
  refine List.Sublist.length_le (List.monotone_filter_right l ?_)
  intro r hr
  rcases Bool.and_eq_true_iff.mp hr with ⟨h1, h2⟩
  exact Bool.and_eq_true_iff.mpr ⟨h1, activeUnexpired_antitone h r h2⟩

/-- countActive is antitone in time. -/
theorem countActive_antitone (db : DB) (uid : Nat) {t t' : Int}
    (h : t ≤ t') : countActive db uid t' ≤ countActive db uid t :=
  filter_active_antitone db.subs uid h

/-- After the cancel UPDATE ran at time t, no row of the user matches the
active-and-unexpired predicate at any instant from t on. -/
theorem filter_after_cancel (l : List SubRow) (uid : Nat) {t t' : Int}
    (h : t ≤ t') :
    (l.map (cancelRow uid t)).filter
      (fun r => r.user_id == uid && activeUnexpired t' r) = [] := by
  induction l with
  | nil => rfl
  | cons r l ih =>
      simp only [List.map_cons, List.filter_cons]
      by_cases hc : (r.user_id == uid && activeUnexpired t r) = true
      · have hdead :
            activeUnexpired t' { r with is_active := false, end_date := some t }
              = false := by
          simp [activeUnexpired]
        simp [cancelRow, hc, hdead, ih]
      · have hnot : (r.user_id == uid && activeUnexpired t' r) = false := by
          cases hu : (r.user_id == uid) with
          | false => simp [hu]
          | true =>
              simp [hu] at hc ⊢
              cases hx : activeUnexpired t' r with
              | false => rfl
              | true =>
                  exact absurd (activeUnexpired_antitone h r hx) (by simp [hc])
        simp [cancelRow, hc, hnot, ih]

/-- The cancel statement leaves the user with zero rows matching the
active-and-unexpired predicate at the cancel time or later. -/
theorem countActive_after_cancel (db : DB) (uid : Nat) {t t' : Int}
    (h : t ≤ t') :
    countActive (cancel_active_subscription db uid t).1 uid t' = 0 := by
  unfold countActive activeRows cancel_active_subscription
  simp only []
  rw [filter_after_cancel db.subs uid h]
  rfl

end Subly

namespace Subly

/-- Any store whose ledger is the cancelled ledger with one row appended
holds at most one active row of the user: the appended row is the only
candidate. -/
theorem countActive_cancel_append (dbA db : DB) (uid : Nat) (now : Int)
    (row : SubRow)
    (hsubs : dbA.subs = db.subs.map (cancelRow uid now) ++ [row]) :
    countActive dbA uid now ≤ 1 := by
  unfold countActive activeRows
  rw [hsubs, List.filter_append, filter_after_cancel db.subs uid le_rfl,
    List.nil_append]
  exact le_trans (List.length_filter_le _ _) le_rfl

/-- The subscribe handler preserves the at-most-one-active bound at its own
request time. -/
theorem countActive_subscribe_le (db : DB) (uid planId : Nat)
    (duration now : Int) (hinv : countActive db uid now ≤ 1) :
    countActive (subscribe db uid planId duration now).1 uid now ≤ 1 := by
  unfold subscribe
  cases hfind : db.plans.find? (fun p => p.id == planId) with
  | none => simpa using hinv
  | some plan =>
      cases hact : get_active_subscription db uid now with
      | some a => simpa using hinv
      | none =>
          simp only []
          exact countActive_cancel_append _ db uid now _ rfl

/-- The cancel handler leaves the user with zero active rows. -/
theorem countActive_cancel_route (db : DB) (uid : Nat) (now : Int) :
    countActive (cancel_subscription db uid now).1 uid now = 0 :=
  countActive_after_cancel db uid le_rfl

/-- The upgrade handler preserves the at-most-one-active bound at its own
request time. -/
theorem countActive_upgrade_le (db : DB) (uid planId : Nat)
    (duration now : Int) (hinv : countActive db uid now ≤ 1) :
    countActive (upgrade_subscription db uid planId duration now).1 uid now
      ≤ 1 := by
  unfold upgrade_subscription
  cases hfind : db.plans.find? (fun p => p.id == planId) with
  | none => simpa using hinv
  | some plan =>
      cases hact : get_active_subscription db uid now with
      | none =>
          simp only []
          exact countActive_subscribe_le db uid planId duration now hinv
      | some a =>
          by_cases hsame : (a.sub.plan_id == planId) = true
          · simpa [hsame] using hinv
          · simp only [hsame, Bool.false_eq_true, if_false]
            exact countActive_cancel_append _ db uid now _ rfl

/-- Every lifecycle operation preserves the at-most-one-active bound at its
own request time. -/
theorem countActive_applyOp_le (db : DB) (uid : Nat) (now : Int) (op : Op)
    (hinv : countActive db uid now ≤ 1) :
    countActive (applyOp db uid now op) uid now ≤ 1 := by
  cases op with
  | subscribeOp planId duration =>
      exact countActive_subscribe_le db uid planId duration now hinv
  | cancelOp =>
      exact le_of_eq_of_le (countActive_cancel_route db uid now)
        (Nat.zero_le 1)
  | upgradeOp planId duration =>
      exact countActive_upgrade_le db uid planId duration now hinv

/-- C1: single-active-subscription invariant.  Starting from a store in
which the user has at most one row satisfying the active-and-unexpired
predicate, any sequential run of Subscribe, Cancel and Upgrade calls at
nondecreasing request times preserves the property: at any instant at or
after every request time, at most one such row of the user exists. -/
theorem single_active_subscription_invariant
    (uid : Nat) (ops : List (Int × Op)) (db : DB) (t0 t : Int)
    (hchain : List.Chain (fun a b : Int => a ≤ b) t0 (ops.map Prod.fst))
    (hlast : ∀ p ∈ ops, p.1 ≤ t) (ht0 : t0 ≤ t)
    (hinv : countActive db uid t0 ≤ 1) :
    countActive (runOps db uid ops) uid t ≤ 1 := by
  induction ops generalizing db t0 with
  | nil => exact le_trans (countActive_antitone db uid ht0) hinv
  | cons p rest ih =>
      obtain ⟨t1, op⟩ := p
      rw [List.map_cons] at hchain
      cases hchain with
      | cons h01 hchain2 =>
          have hinv1 : countActive db uid t1 ≤ 1 :=
            le_trans (countActive_antitone db uid h01) hinv
          have hstep : countActive (applyOp db uid t1 op) uid t1 ≤ 1 :=
            countActive_applyOp_le db uid t1 op hinv1
          have hlast2 : ∀ q ∈ rest, q.1 ≤ t := fun q hq =>
            hlast q (List.mem_cons_of_mem _ hq)
          have ht1 : t1 ≤ t := hlast (t1, op) (List.mem_cons_self _ _)
          exact ih (applyOp db uid t1 op) t1 hchain2 hlast2 ht1 hstep

/-- Witness for C1 at a concrete store and a concrete call sequence. -/
theorem single_active_subscription_invariant_witness :
    countActive (runOps dbEmpty 7 opsSample) 7 30 ≤ 1 :=
  single_active_subscription_invariant 7 opsSample dbEmpty 0 30
    (List.Chain.cons (by decide) (List.Chain.cons (by decide)
      (List.Chain.cons (by decide) List.Chain.nil)))
    (by decide) (by decide) (by decide)

end Subly

namespace Subly

/-- The outcome flag of the cancel route, as a condition on the number of
matching rows. -/
theorem cancel_subscription_snd (db : DB) (uid : Nat) (now : Int) :
    (cancel_subscription db uid now).2 =
      if 0 < countActive db uid now then CancelResult.success
      else CancelResult.notFound := by
  unfold cancel_subscription cancel_active_subscription
  by_cases h : 0 < countActive db uid now <;> simp [h]

/-- The store reached through the cancel route is the store of the cancel
UPDATE. -/
theorem cancel_subscription_fst (db : DB) (uid : Nat) (now : Int) :
    (cancel_subscription db uid now).1 =
      (cancel_active_subscription db uid now).1 := rfl

/-- C4: idempotent cancel.  For a user holding exactly one
active-and-unexpired row, cancelling twice in sequence yields success on
the first call and the not-found signal on the second; the second call is
not an error. -/
theorem cancel_idempotent (db : DB) (uid : Nat) (t1 t2 : Int)
    (hone : countActive db uid t1 = 1) (h12 : t1 ≤ t2) :
    (cancel_subscription db uid t1).2 = CancelResult.success ∧
    (cancel_subscription (cancel_subscription db uid t1).1 uid t2).2 =
      CancelResult.notFound := by
  constructor
  · rw [cancel_subscription_snd, hone]
    simp
  · rw [cancel_subscription_fst, cancel_subscription_snd,
      countActive_after_cancel db uid h12]
    simp

/-- Witness for C4 at a concrete store with one active row. -/
theorem cancel_idempotent_witness :
    (cancel_subscription dbOne 7 10).2 = CancelResult.success ∧
    (cancel_subscription (cancel_subscription dbOne 7 10).1 7 20).2 =
      CancelResult.notFound :=
  cancel_idempotent dbOne 7 10 20 (by decide) (by decide)

/-- C3: expiry correctness of the active-subscription lookup.  Any row it
returns belongs to the user, has is_active true and an end date that is
null or strictly in the future (so a stale row is never returned); and,
when every ledger row joins to a plan, it returns none exactly when no row
of the user satisfies the active-and-unexpired predicate. -/
theorem get_active_expiry_correct (db : DB) (uid : Nat) (now : Int)
    (hfk : db.subs.all (fun r => (joinPlan db.plans r).isSome) = true) :
    (∀ j, get_active_subscription db uid now = some j →
        j.sub.user_id = uid ∧ j.sub.is_active = true ∧
        (j.sub.end_date = none ∨
          ∃ e, j.sub.end_date = some e ∧ now < e)) ∧
    (get_active_subscription db uid now = none ↔
      db.subs.all
        (fun r => !(r.user_id == uid) || !(activeUnexpired now r)) = true) := by
  constructor
  · intro j hj
    unfold get_active_subscription at hj
    obtain ⟨tl, htl⟩ := List.head?_eq_some_iff.mp hj
    have hmem : j ∈ (activeRows db uid now).filterMap (joinPlan db.plans) := by
      rw [htl]
      exact List.mem_cons_self _ _
    obtain ⟨r, hr, hjr⟩ := List.mem_filterMap.mp hmem
    have hsub : j.sub = r := by
      unfold joinPlan at hjr
      cases hp : db.plans.find? (fun p => p.id == r.plan_id) with
      | none => rw [hp] at hjr; simp at hjr
      | some p =>
          rw [hp] at hjr
          simp at hjr
          rw [← hjr]
    have hfil := List.mem_filter.mp hr
    rcases Bool.and_eq_true_iff.mp hfil.2 with ⟨hu, ha⟩
    refine ⟨by rw [hsub]; simpa using hu, ?_, ?_⟩
    · rw [hsub]
      cases he : r.end_date <;> simp [activeUnexpired, he] at ha <;>
        first
        | exact ha
        | exact ha.1
    · rw [hsub]
      cases he : r.end_date with
      | none => exact Or.inl rfl
      | some e =>
          simp [activeUnexpired, he] at ha
          exact Or.inr ⟨e, rfl, ha.2⟩
  · constructor
    · intro hnone
      unfold get_active_subscription at hnone
      have hnil : (activeRows db uid now).filterMap (joinPlan db.plans) = [] :=
        List.head?_eq_none_iff.mp hnone
      have hempty : activeRows db uid now = [] := by
        cases hcase : activeRows db uid now with
        | nil => rfl
        | cons r tl =>
            have hrmem : r ∈ db.subs :=
              List.mem_of_mem_filter (hcase ▸ List.mem_cons_self r tl)
            have hsome : (joinPlan db.plans r).isSome = true :=
              List.all_eq_true.mp hfk r hrmem
            obtain ⟨j, hj⟩ := Option.isSome_iff_exists.mp hsome
            have hmem2 : j ∈ (activeRows db uid now).filterMap (joinPlan db.plans) :=
              List.mem_filterMap.mpr
                ⟨r, by rw [hcase]; exact List.mem_cons_self _ _, hj⟩
            rw [hnil] at hmem2
            cases hmem2
      rw [List.all_eq_true]
      intro r hrmem
      have hno : ¬((r.user_id == uid && activeUnexpired now r) = true) := by
        intro hx
        have hin : r ∈ activeRows db uid now :=
          List.mem_filter.mpr ⟨hrmem, hx⟩
        rw [hempty] at hin
        cases hin
      cases h1 : (r.user_id == uid) <;> cases h2 : activeUnexpired now r <;>
        simp_all
    · intro hall
      unfold get_active_subscription
      have hempty : activeRows db uid now = [] := by
        apply List.filter_eq_nil_iff.mpr
        intro r hrmem
        have := List.all_eq_true.mp hall r hrmem
        cases h1 : (r.user_id == uid) <;> cases h2 : activeUnexpired now r <;>
          simp_all
      rw [hempty]
      rfl

/-- Witness for C3: on the store holding only the stale row, the lookup
returns none, and indeed no row of user 7 matches the predicate. -/
theorem get_active_expiry_correct_witness :
    get_active_subscription dbStale 7 100 = none ↔
      dbStale.subs.all
        (fun r => !(r.user_id == 7) || !(activeUnexpired 100 r)) = true :=
  (get_active_expiry_correct dbStale 7 100 (by decide)).2

/-- C10: with per_page = 0 the history route reaches the pages computation
(total + per_page - 1) // per_page, Python raises ZeroDivisionError, the
catch-all except converts it to the generic internal-error payload with
status 500 instead of a validation error. -/
theorem history_route_per_page_zero (db : DB) (uid : Nat) (page : Int) :
    get_subscription_history_route db uid page 0 =
      HistoryResult.internalError "Internal server error" := by
  simp [get_subscription_history_route, pyFloorDiv]

/-- C2: the check-cancel-insert sequence of the subscribe handler is not
atomic.  Under the interleaving check, check, cancel, cancel, insert,
insert, two concurrent subscribe calls of user 7 both return the 201
success response and leave two simultaneously active rows. -/
theorem subscribe_race_two_active :
    raceFinal.2.1.result = some (SubscribeResult.success 1 "Pro" 130) ∧
    raceFinal.2.2.result = some (SubscribeResult.success 2 "Pro" 130) ∧
    countActive raceFinal.1 7 100 = 2 := by
  refine ⟨rfl, rfl, rfl⟩

/-- C9: the create-plan handler reports an unexpected storage failure with
the same 409 duplicate-name payload it uses for a real name conflict: the
two conditions are indistinguishable to the caller, and no generic
internal-failure message exists on this path. -/
theorem create_plan_storage_failure_conflated :
    (create_plan dbEmpty reqFresh true).2 =
      CreatePlanResult.conflict "Plan with this name already exists" ∧
    (create_plan dbEmpty reqDup false).2 =
      CreatePlanResult.conflict "Plan with this name already exists" ∧
    (create_plan dbEmpty reqFresh true).2 =
      (create_plan dbEmpty reqDup false).2 := by
  refine ⟨rfl, rfl, rfl⟩

end Subly

namespace Subly

/-- A successful plan join carries the joined ledger row unchanged. -/
theorem joinPlan_sub (plans : List SubscriptionPlan) (r : SubRow)
    (j : JoinedRow) (h : joinPlan plans r = some j) : j.sub = r := by
  unfold joinPlan at h
  cases hp : plans.find? (fun p => p.id == r.plan_id) with
  | none => rw [hp] at h; simp at h
  | some p =>
      rw [hp] at h
      simp at h
      rw [← h]

/-- With every ledger row resolvable in the catalog, a lookup returning
none means no row of the user matches the active-and-unexpired predicate. -/
theorem activeRows_eq_nil_of_none (db : DB) (uid : Nat) (now : Int)
    (hfk : db.subs.all (fun r => (joinPlan db.plans r).isSome) = true)
    (hnone : get_active_subscription db uid now = none) :
    activeRows db uid now = [] := by
  unfold get_active_subscription at hnone
  have hnil : (activeRows db uid now).filterMap (joinPlan db.plans) = [] :=
    List.head?_eq_none_iff.mp hnone
  cases hcase : activeRows db uid now with
  | nil => rfl
  | cons r tl =>
      have hrmem : r ∈ db.subs :=
        List.mem_of_mem_filter (hcase ▸ List.mem_cons_self r tl)
      have hsome : (joinPlan db.plans r).isSome = true :=
        List.all_eq_true.mp hfk r hrmem
      obtain ⟨j, hj⟩ := Option.isSome_iff_exists.mp hsome
      have hmem2 : j ∈ (activeRows db uid now).filterMap (joinPlan db.plans) :=
        List.mem_filterMap.mpr
          ⟨r, by rw [hcase]; exact List.mem_cons_self _ _, hj⟩
      rw [hnil] at hmem2
      cases hmem2

/-- A ledger in which no row of the user matches the predicate passes the
cancel UPDATE unchanged. -/
theorem map_cancelRow_id (l : List SubRow) (uid : Nat) (now : Int)
    (h : ∀ r ∈ l, (r.user_id == uid && activeUnexpired now r) = false) :
    l.map (cancelRow uid now) = l := by
  induction l with
  | nil => rfl
  | cons r t ih =>
      have hr := h r (List.mem_cons_self _ _)
      simp only [List.map_cons]
      rw [ih (fun x hx => h x (List.mem_cons_of_mem _ hx))]
      simp [cancelRow, hr]

/-- C6 amended: on a successful Subscribe the cancel-before-create step
matches only active-and-unexpired rows, of which there are none once the
earlier active check passed, so every pre-existing row of the ledger —
stale rows included — is left unchanged, and exactly the new row with
start_date = now, end_date = now + 30 * duration days, is_active = true is
appended. -/
theorem subscribe_success_appends (db : DB) (uid planId : Nat)
    (duration now : Int)
    (hfk : db.subs.all (fun r => (joinPlan db.plans r).isSome) = true)
    (i : Nat) (n : String) (e : Int)
    (hs : (subscribe db uid planId duration now).2 =
      SubscribeResult.success i n e) :
    (subscribe db uid planId duration now).1.subs =
      db.subs ++
        [{ id := db.nextId, user_id := uid, plan_id := planId,
           start_date := now, end_date := some (now + 30 * duration),
           is_active := true, created_at := db.importTime }] := by
  unfold subscribe at hs ⊢
  cases hfind : db.plans.find? (fun p => p.id == planId) with
  | none => rw [hfind] at hs; simp at hs
  | some plan =>
      cases hact : get_active_subscription db uid now with
      | some a => rw [hfind, hact] at hs; simp at hs
      | none =>
          have hempty : activeRows db uid now = [] :=
            activeRows_eq_nil_of_none db uid now hfk hact
          have hmap : db.subs.map (cancelRow uid now) = db.subs :=
            map_cancelRow_id db.subs uid now (fun r hr => by
              simpa using List.filter_eq_nil_iff.mp hempty r hr)
          show db.subs.map (cancelRow uid now) ++ [_] = db.subs ++ [_]
          rw [hmap]
          rfl

/-- Witness for the amended C6 on the store holding the stale row. -/
theorem subscribe_success_appends_witness :
    (subscribe dbStale 7 1 1 10).1.subs =
      dbStale.subs ++
        [{ id := dbStale.nextId, user_id := 7, plan_id := 1,
           start_date := 10, end_date := some (10 + 30 * 1),
           is_active := true, created_at := dbStale.importTime }] :=
  subscribe_success_appends dbStale 7 1 1 10 (by decide) 2 "Pro" 40
    (by decide)

/-- C6 counterexample: on a store holding a stale row (is_active true with
end date 5 already past at request time 10), Subscribe succeeds but the
stale row is still flagged active afterwards: the cancel WHERE clause
excludes stale rows, so no defensive cleanup happens. -/
theorem subscribe_stale_not_cleaned :
    (subscribe dbStale 7 1 1 10).2 = SubscribeResult.success 2 "Pro" 40 ∧
    (subscribe dbStale 7 1 1 10).1.subs.head? = some staleRow ∧
    staleRow.is_active = true ∧ staleRow.end_date = some 5 ∧ (5 : Int) < 10 := by
  refine ⟨rfl, rfl, rfl, rfl, by decide⟩

/-- C7 counterexample: on a store where two rows of user 7 match the
active-and-unexpired predicate, the lookup returns the first match without
crashing but emits no log record at all, so no inconsistency is logged. -/
theorem tie_break_no_log :
    countActive dbTwoActive 7 100 = 2 ∧
    (get_active_subscription_logged dbTwoActive 7 100).1 =
      some { sub := act1, plan_name := "Pro", plan_price := 100 } ∧
    (get_active_subscription_logged dbTwoActive 7 100).2 = [] := by
  refine ⟨rfl, rfl, rfl⟩

/-- C7 amended: with several matching rows the lookup does not fail: it
deterministically returns the first match in storage order — the match
with the lowest identifier when the ledger is stored in ascending id
order — but it emits no log record. -/
theorem get_active_first_match (db : DB) (uid : Nat) (now : Int)
    (j : JoinedRow)
    (hsorted : db.subs.Pairwise (fun a b => a.id < b.id))
    (hfk : db.subs.all (fun r => (joinPlan db.plans r).isSome) = true)
    (hj : get_active_subscription db uid now = some j) :
    (j.sub.user_id == uid && activeUnexpired now j.sub) = true ∧
    (∀ r ∈ db.subs, (r.user_id == uid && activeUnexpired now r) = true →
      j.sub.id ≤ r.id) ∧
    (get_active_subscription_logged db uid now).2 = [] := by
  unfold get_active_subscription at hj
  obtain ⟨tl, htl⟩ := List.head?_eq_some_iff.mp hj
  have hjmem : j ∈ (activeRows db uid now).filterMap (joinPlan db.plans) := by
    rw [htl]
    exact List.mem_cons_self _ _
  obtain ⟨r0, hr0, hjr0⟩ := List.mem_filterMap.mp hjmem
  have hsub0 : j.sub = r0 := joinPlan_sub db.plans r0 j hjr0
  have hpairRows : (activeRows db uid now).Pairwise (fun a b => a.id < b.id) :=
    hsorted.filter _
  have hpairJ :
      ((activeRows db uid now).filterMap (joinPlan db.plans)).Pairwise
        (fun a b => a.sub.id < b.sub.id) := by
    refine List.pairwise_filterMap.mpr (hpairRows.imp ?_)
    intro a b hab jb hjb jb2 hjb2
    rw [joinPlan_sub db.plans a jb hjb, joinPlan_sub db.plans b jb2 hjb2]
    exact hab
  refine ⟨?_, ?_, rfl⟩
  · rw [hsub0]
    exact (List.mem_filter.mp hr0).2
  · intro r hrmem hrpred
    have hrrows : r ∈ activeRows db uid now :=
      List.mem_filter.mpr ⟨hrmem, hrpred⟩
    have hsome : (joinPlan db.plans r).isSome = true :=
      List.all_eq_true.mp hfk r hrmem
    obtain ⟨jr, hjr⟩ := Option.isSome_iff_exists.mp hsome
    have hjrmem : jr ∈ (activeRows db uid now).filterMap (joinPlan db.plans) :=
      List.mem_filterMap.mpr ⟨r, hrrows, hjr⟩
    have hjrsub : jr.sub = r := joinPlan_sub db.plans r jr hjr
    rw [htl] at hjrmem hpairJ
    cases List.mem_cons.mp hjrmem with
    | inl heq =>
        have hjs : j.sub = r := heq ▸ hjrsub
        rw [hjs]
    | inr htail =>
        have hlt : j.sub.id < jr.sub.id :=
          (List.pairwise_cons.mp hpairJ).1 jr htail
        rw [hjrsub] at hlt
        exact le_of_lt hlt

/-- Witness for the amended C7: at the two-active-row store the returned
row has the lower id of the two matches, and the call logs nothing. -/
theorem get_active_first_match_witness :
    ({ sub := act1, plan_name := "Pro", plan_price := 100 } :
      JoinedRow).sub.id ≤ act2.id ∧
    (get_active_subscription_logged dbTwoActive 7 100).2 = [] := by
  have h := get_active_first_match dbTwoActive 7 100
    { sub := act1, plan_name := "Pro", plan_price := 100 }
    (by decide) (by decide) rfl
  exact ⟨h.2.1 act2 (by decide) (by decide), h.2.2⟩

/-- C5: the history query orders by the stored created_at column, but that
column takes the import-time default for every row inserted through the
handlers, so two subscriptions created at request times 10 and 30 share
created_at 0 and are returned in rowid order — the row started at time 10
first — not newest-created-first. -/
theorem history_not_newest_first :
    dbTwoEras.subs.map (fun r => (r.id, r.start_date, r.created_at)) =
      [(1, 10, 0), (2, 30, 0)] ∧
    (get_subscription_history dbTwoEras 7 1 10).1.map (fun j => j.sub.id) =
      [1, 2] ∧
    (get_subscription_history dbTwoEras 7 1 10).2 = 2 := by
  refine ⟨rfl, rfl, rfl⟩

end Subly

namespace Subly

/-- filterMap drops nothing when the function succeeds on every element. -/
theorem length_filterMap_of_isSome {α β : Type} (f : α → Option β)
    (l : List α) (h : ∀ a ∈ l, (f a).isSome = true) :
    (l.filterMap f).length = l.length := by
  induction l with
  | nil => rfl
  | cons a t ih =>
      obtain ⟨b, hb⟩ :=
        Option.isSome_iff_exists.mp (h a (List.mem_cons_self _ _))
      simp [List.filterMap_cons, hb,
        ih (fun x hx => h x (List.mem_cons_of_mem _ hx))]

/-- C8: pagination totals.  For positive page and perPage the history route
answers 200 with total equal to the number of ledger rows of the user
(unfiltered by pagination), with pages computed as
(total + perPage - 1) / perPage, which is exactly the ceiling of
total / perPage; and the returned slice has length
min perPage (total - (page - 1) * perPage), so a first page over at least
perPage rows holds exactly perPage rows. -/
theorem history_pagination (db : DB) (uid : Nat) (pg pp : Nat)
    (hpg : 1 ≤ pg) (hpp : 1 ≤ pp)
    (hfk : db.subs.all (fun r => (joinPlan db.plans r).isSome) = true) :
    get_subscription_history_route db uid (pg : Int) (pp : Int) =
      HistoryResult.ok (get_subscription_history db uid pg pp).1
        ((db.subs.filter (fun r => r.user_id == uid)).length)
        (pg : Int) (pp : Int)
        ((((db.subs.filter (fun r => r.user_id == uid)).length + pp - 1) / pp
          : Nat) : Int) ∧
    (((db.subs.filter (fun r => r.user_id == uid)).length + pp - 1) / pp
        : Nat) =
      (db.subs.filter (fun r => r.user_id == uid)).length ⌈/⌉ pp ∧
    (get_subscription_history db uid pg pp).1.length =
      min pp
        ((db.subs.filter (fun r => r.user_id == uid)).length - (pg - 1) * pp) := by
  have hppz : (pp : Int) ≠ 0 := by
    exact_mod_cast Nat.one_le_iff_ne_zero.mp hpp
  refine ⟨?_, (Nat.ceilDiv_eq_add_pred_div _ _).symm, ?_⟩
  · have hb : ((pp : Int) == 0) = false := beq_eq_false_iff_ne.mpr hppz
    have hcast :
        (((db.subs.filter (fun r => r.user_id == uid)).length : Int) +
            (pp : Int) - 1) =
          (((db.subs.filter (fun r => r.user_id == uid)).length + pp - 1
            : Nat) : Int) := by
      omega
    have h2 : (get_subscription_history db uid pg pp).2 =
        (db.subs.filter (fun r => r.user_id == uid)).length := rfl
    simp only [get_subscription_history_route, pyFloorDiv, hb,
      Int.toNat_natCast, Bool.false_eq_true, if_false]
    rw [h2, hcast, ← Int.ofNat_fdiv]
  · have hjoined :
        (((db.subs.filter (fun r => r.user_id == uid)).filterMap
          (joinPlan db.plans))).length =
          (db.subs.filter (fun r => r.user_id == uid)).length :=
      length_filterMap_of_isSome _ _
        (fun r hr => List.all_eq_true.mp hfk r (List.mem_of_mem_filter hr))
    have hsort :
        (orderByCreatedDesc
          ((db.subs.filter (fun r => r.user_id == uid)).filterMap
            (joinPlan db.plans))).length =
          (db.subs.filter (fun r => r.user_id == uid)).length :=
      (List.perm_insertionSort _ _).length_eq.trans hjoined
    simp only [get_subscription_history]
    rw [List.length_take, List.length_drop, hsort]

/-- Witness for C8 on the hundred-row store: page 1, perPage 10 yields
total 100, pages 10 and exactly 10 rows. -/
theorem history_pagination_witness :
    get_subscription_history_route dbHundred 7 1 10 =
      HistoryResult.ok (get_subscription_history dbHundred 7 1 10).1
        100 1 10 10 ∧
    (get_subscription_history dbHundred 7 1 10).1.length = 10 := by
  have h := history_pagination dbHundred 7 1 10 (by decide) (by decide)
    (by decide)
  have htot : (dbHundred.subs.filter (fun r => r.user_id == 7)).length = 100 := by
    decide
  constructor
  · have h1 := h.1
    rw [htot] at h1
    simpa using h1
  · have h3 := h.2.2
    rw [htot] at h3
    simpa using h3

end Subly
